import Mathlib

/-!
Shallow embedding of the tag-guard tag enforcement library.

Tags and roles are case-sensitive names; we model both as `String`
(equality of the Rust `Tag`/`Role` wrappers is by name).  The registry
(`Engine`) holds an association list of tag specifications, a set of
registered names (proper tags and groups) and a set of registered roles;
the Rust `HashMap`/`HashSet` are modelled as insertion-ordered lists with
set semantics (insert is idempotent on keys, lookup returns the unique
entry for a key).
-/

namespace TagGuard

/-- Error taxonomy of `src/error.rs`. -/
inductive Error where
  | RequiresTags : String → List String → Error
  | IncompatibleTags : String → String → Error
  | MissingTag : String → Error
  | NoSuchTag : String → Error
  | MissingRole : String → Error
  | MissingRoles : List String → Error
  | NoSuchRole : String → Error
  | Other : String → Error
deriving DecidableEq, Repr

/-- Input specification of a tag's requirements (`TemplateTagSpec` in
`src/tag/spec.rs`). -/
structure TemplateTagSpec where
  required_tags : List String
  conflicting_tags : List String
  needed_roles : List String
  groups : List String
deriving DecidableEq, Repr

/-- A `TemplateTagSpec` bound to a particular tag (`TagSpec` in
`src/tag/spec.rs`). -/
structure TagSpec where
  tag : String
  required_tags : List String
  conflicting_tags : List String
  needed_roles : List String
  groups : List String
deriving DecidableEq, Repr

/-- Constructs a `TagSpec` from a tag and a template
(`TagSpec::from_template`). -/
def TagSpec.from_template (tag : String) (spec : TemplateTagSpec) : TagSpec :=
  { tag := tag
    required_tags := spec.required_tags
    conflicting_tags := spec.conflicting_tags
    needed_roles := spec.needed_roles
    groups := spec.groups }

/-- Association-list lookup, modelling `HashMap::get` on `specs`. -/
def lookupSpec : List (String × TagSpec) → String → Option TagSpec
  | [], _ => none
  | (k, v) :: rest, t => if k = t then some v else lookupSpec rest t

/-- Association-list insert, modelling `HashMap::insert` on `specs`:
overwrites the value when the key is present. -/
def insertSpec : List (String × TagSpec) → String → TagSpec → List (String × TagSpec)
  | [], k, v => [(k, v)]
  | (k', v') :: rest, k, v =>
    if k' = k then (k, v) :: rest else (k', v') :: insertSpec rest k v

/-- Set insert on a name list, modelling `HashSet::insert`. -/
def insertName (l : List String) (n : String) : List String :=
  if n ∈ l then l else l ++ [n]

/-- The registry (`Engine` in `src/engine.rs`). -/
structure Engine where
  specs : List (String × TagSpec)
  tags : List String
  roles : List String
deriving DecidableEq, Repr

/-- The default (empty) engine, `Engine::default()`. -/
def Engine.empty : Engine :=
  { specs := [], tags := [], roles := [] }

/-- Registers a proper tag with the given template (`Engine::add_tag`). -/
def Engine.add_tag (e : Engine) (name : String) (spec : TemplateTagSpec) : Engine :=
  { e with
    specs := insertSpec e.specs name (TagSpec.from_template name spec)
    tags := insertName e.tags name }

/-- Strips a deleted tag from a surviving spec's `required_tags` and
`conflicting_tags` (the pruning loop of `Engine::delete_tag`). -/
def pruneDeletedTag (tag : String) (s : TagSpec) : TagSpec :=
  { s with
    required_tags := s.required_tags.filter (fun t => t ≠ tag)
    conflicting_tags := s.conflicting_tags.filter (fun t => t ≠ tag) }

/-- Unregisters a tag (`Engine::delete_tag`): removes its spec and name,
and prunes it from every surviving spec's `required_tags` and
`conflicting_tags` (but not from `groups`). -/
def Engine.delete_tag (e : Engine) (tag : String) : Engine :=
  { e with
    specs := (e.specs.filter (fun p => p.1 ≠ tag)).map
      (fun p => (p.1, pruneDeletedTag tag p.2))
    tags := e.tags.filter (fun t => t ≠ tag) }

/-- Registers a tag group (`Engine::add_group`): interns the name with no
spec. -/
def Engine.add_group (e : Engine) (name : String) : Engine :=
  { e with tags := insertName e.tags name }

/-- Unregisters a tag group (`Engine::delete_group`): removes the name
from `tags` and prunes it from every spec's `groups`.  The `specs` map
itself is untouched. -/
def Engine.delete_group (e : Engine) (group : String) : Engine :=
  { e with
    specs := e.specs.map
      (fun p => (p.1, { p.2 with groups := p.2.groups.filter (fun g => g ≠ group) }))
    tags := e.tags.filter (fun t => t ≠ group) }

/-- Registers a role (`Engine::add_role`). -/
def Engine.add_role (e : Engine) (name : String) : Engine :=
  { e with roles := insertName e.roles name }

/-- Unregisters a role (`Engine::delete_role`): removes it from `roles`
and prunes it from every spec's `needed_roles`. -/
def Engine.delete_role (e : Engine) (role : String) : Engine :=
  { e with
    specs := e.specs.map
      (fun p => (p.1, { p.2 with needed_roles := p.2.needed_roles.filter (fun r => r ≠ role) }))
    roles := e.roles.filter (fun r => r ≠ role) }

/-- Spec lookup (`Engine::get_spec`): `MissingTag` when the name has no
spec entry. -/
def Engine.get_spec (e : Engine) (tag : String) : Except Error TagSpec :=
  match lookupSpec e.specs tag with
  | some s => .ok s
  | none => .error (Error.MissingTag tag)

/-- Interned tag lookup by name (`Engine::get_tag`). -/
def Engine.get_tag (e : Engine) (name : String) : Except Error String :=
  if name ∈ e.tags then .ok name else .error (Error.NoSuchTag name)

/-- Interned role lookup by name (`Engine::get_role`). -/
def Engine.get_role (e : Engine) (name : String) : Except Error String :=
  if name ∈ e.roles then .ok name else .error (Error.NoSuchRole name)

/-- Group test (`Engine::is_group`): registered in `tags` with no entry
in `specs`. -/
def Engine.is_group (e : Engine) (tag : String) : Bool :=
  decide (tag ∈ e.tags) && (lookupSpec e.specs tag).isNone

/-- Counts the members of `tags` that are in the group `check`
(`Engine::count_tag`): a member counts when it equals `check` or when its
spec declares `check` among its `groups`; the spec lookup is skipped for
members equal to `check` (short-circuit of the Rust `||`). -/
def Engine.count_tag (e : Engine) (check : String) : List String → Except Error Nat
  | [] => .ok 0
  | t :: rest =>
    if t = check then
      match e.count_tag check rest with
      | .error err => .error err
      | .ok n => .ok (n + 1)
    else
      match e.get_spec t with
      | .error err => .error err
      | .ok s =>
        if check ∈ s.groups then
          match e.count_tag check rest with
          | .error err => .error err
          | .ok n => .ok (n + 1)
        else e.count_tag check rest

/-- Presence test (`Engine::check_tag`): group-aware counting for groups,
plain membership otherwise. -/
def Engine.check_tag (e : Engine) (check : String) (tags : List String) : Except Error Bool :=
  if e.is_group check then
    match e.count_tag check tags with
    | .error err => .error err
    | .ok n => .ok (decide (0 < n))
  else .ok (decide (check ∈ tags))

/-- Role gate of `TagSpec::check_roles`: scans the held roles for one
listed in `needed`; when none matches (in particular whenever the held
list is exhausted) fails with `MissingRoles(needed)`. -/
def checkRolesAux (needed : List String) : List String → Except Error Unit
  | [] => .error (Error.MissingRoles needed)
  | r :: rest => if r ∈ needed then .ok () else checkRolesAux needed rest

/-- Role gate method (`TagSpec::check_roles`). -/
def TagSpec.check_roles (s : TagSpec) (roles : List String) : Except Error Unit :=
  checkRolesAux s.needed_roles roles

/-- Added/removed overlap preflight: the loop over `added_tags` present
in both `TagSpec::check_tag_changes` and `Engine::check_tag_changes`. -/
def addedRemovedCheck : List String → List String → Except Error Unit
  | [], _ => .ok ()
  | t :: rest, removed =>
    if t ∈ removed then
      .error (Error.Other ("Tag present in both added_tags and removed_tags"))
    else addedRemovedCheck rest removed

/-- Effective presence count of a name during a transition evaluation:
the local `count_tags` closure of `TagSpec::check_tag_changes` (zero for
removed names, otherwise current plus added occurrences). -/
def countTags (e : Engine) (tags added removed : List String) (tag : String) :
    Except Error Nat :=
  if tag ∈ removed then .ok 0
  else
    match e.count_tag tag tags with
    | .error err => .error err
    | .ok a =>
      match e.count_tag tag added with
      | .error err => .error err
      | .ok b => .ok (a + b)

/-- Requirements loop of `TagSpec::check_tag_changes`: each required name
must have a positive effective count. -/
def checkRequired (e : Engine) (s : TagSpec) (tags added removed : List String) :
    List String → Except Error Unit
  | [] => .ok ()
  | r :: rest =>
    match countTags e tags added removed r with
    | .error err => .error err
    | .ok n =>
      if n = 0 then .error (Error.RequiresTags s.tag s.required_tags)
      else checkRequired e s tags added removed rest

/-- Conflict tolerance limit of `TagSpec::check_tag_changes`: one when the
conflicting name is a registered group and the evaluated tag is present in
the current or added list, zero otherwise. -/
def conflictLimit (e : Engine) (s : TagSpec) (tags added : List String) (c : String) :
    Except Error Nat :=
  if e.is_group c then
    match e.check_tag s.tag tags with
    | .error err => .error err
    | .ok b1 =>
      match e.check_tag s.tag added with
      | .error err => .error err
      | .ok b2 => .ok (if b1 || b2 then 1 else 0)
  else .ok 0

/-- One iteration of the conflicts loop of `TagSpec::check_tag_changes`. -/
def checkOneConflict (e : Engine) (s : TagSpec) (tags added removed : List String)
    (c : String) : Except Error Unit :=
  match conflictLimit e s tags added c with
  | .error err => .error err
  | .ok limit =>
    match countTags e tags added removed c with
    | .error err => .error err
    | .ok n =>
      if n > limit then .error (Error.IncompatibleTags s.tag c) else .ok ()

/-- Conflicts loop of `TagSpec::check_tag_changes`. -/
def checkConflicts (e : Engine) (s : TagSpec) (tags added removed : List String) :
    List String → Except Error Unit
  | [] => .ok ()
  | c :: rest =>
    match checkOneConflict e s tags added removed c with
    | .error err => .error err
    | .ok _ => checkConflicts e s tags added removed rest

/-- Per-tag transition evaluation (`TagSpec::check_tag_changes`):
overlap preflight, then the role gate (only when this spec's tag is added
or removed), then requirements, then conflicts. -/
def TagSpec.check_tag_changes (s : TagSpec) (e : Engine)
    (tags added removed roles : List String) : Except Error Unit :=
  match addedRemovedCheck added removed with
  | .error err => .error err
  | .ok _ =>
    match (if s.tag ∈ added ∨ s.tag ∈ removed then s.check_roles roles else .ok ()) with
    | .error err => .error err
    | .ok _ =>
      match checkRequired e s tags added removed s.required_tags with
      | .error err => .error err
      | .ok _ => checkConflicts e s tags added removed s.conflicting_tags

/-- Per-tag state evaluation (`TagSpec::check_tags`): the trivial
transition. -/
def TagSpec.check_tags (s : TagSpec) (e : Engine) (tags : List String) :
    Except Error Unit :=
  s.check_tag_changes e tags [] [] []

/-- Loop of `Engine::check_tags`: looks up each current tag's spec and
evaluates it against the whole current list. -/
def checkTagsAux (e : Engine) (all : List String) : List String → Except Error Unit
  | [] => .ok ()
  | t :: rest =>
    match e.get_spec t with
    | .error err => .error err
    | .ok s =>
      match s.check_tags e all with
      | .error err => .error err
      | .ok _ => checkTagsAux e all rest

/-- State validation (`Engine::check_tags`). -/
def Engine.check_tags (e : Engine) (tags : List String) : Except Error Unit :=
  checkTagsAux e tags tags

/-- Registered-role preflight of `Engine::check_tag_changes`. -/
def rolesRegisteredCheck (e : Engine) : List String → Except Error Unit
  | [] => .ok ()
  | r :: rest =>
    if r ∈ e.roles then rolesRegisteredCheck e rest
    else .error (Error.MissingRole r)

/-- Loop of `Engine::check_tag_changes`: evaluates the spec of each
current tag against the transition. -/
def checkChangesAux (e : Engine) (all added removed roles : List String) :
    List String → Except Error Unit
  | [] => .ok ()
  | t :: rest =>
    match e.get_spec t with
    | .error err => .error err
    | .ok s =>
      match s.check_tag_changes e all added removed roles with
      | .error err => .error err
      | .ok _ => checkChangesAux e all added removed roles rest

/-- Transition validation (`Engine::check_tag_changes`): unregistered-role
preflight, added/removed overlap preflight, then the per-tag loop over the
current tagset only. -/
def Engine.check_tag_changes (e : Engine) (tags added removed roles : List String) :
    Except Error Unit :=
  match rolesRegisteredCheck e roles with
  | .error err => .error err
  | .ok _ =>
    match addedRemovedCheck added removed with
    | .error err => .error err
    | .ok _ => checkChangesAux e tags added removed roles tags

/-- A template with all four rule lists empty (`TemplateTagSpec::default`). -/
def emptyTemplate : TemplateTagSpec :=
  { required_tags := [], conflicting_tags := [], needed_roles := [], groups := [] }

/-- The canonical registry of `src/test/setup.rs` (the setup referenced by
spec section 8). -/
def setup : Engine :=
  let e := Engine.empty
  let e := e.add_tag ("scp")
    { required_tags := [], conflicting_tags := ["primary"], needed_roles := [],
      groups := ["primary"] }
  let e := e.add_tag ("tale")
    { required_tags := [], conflicting_tags := ["primary"], needed_roles := [],
      groups := ["primary"] }
  let e := e.add_tag ("creepypasta")
    { required_tags := ["tale"], conflicting_tags := [], needed_roles := [],
      groups := [] }
  let e := e.add_tag ("hub")
    { required_tags := [], conflicting_tags := ["primary"], needed_roles := [],
      groups := ["primary"] }
  let e := e.add_tag ("safe")
    { required_tags := ["scp"], conflicting_tags := [], needed_roles := [],
      groups := ["object-class"] }
  let e := e.add_tag ("euclid")
    { required_tags := ["scp"], conflicting_tags := [], needed_roles := [],
      groups := ["object-class"] }
  let e := e.add_tag ("keter")
    { required_tags := ["scp"], conflicting_tags := [], needed_roles := [],
      groups := ["object-class"] }
  let e := e.add_tag ("thaumiel")
    { required_tags := ["scp"], conflicting_tags := [], needed_roles := [],
      groups := ["object-class"] }
  let e := e.add_tag ("esoteric-class")
    { required_tags := ["scp"], conflicting_tags := [], needed_roles := [],
      groups := ["object-class"] }
  let e := e.add_tag ("_image")
    { required_tags := [], conflicting_tags := ["_cc"], needed_roles := [],
      groups := ["licensing"] }
  let e := e.add_tag ("_cc")
    { required_tags := [], conflicting_tags := ["_image"], needed_roles := ["licensing"],
      groups := ["licensing"] }
  let e := e.add_tag ("amorphous")
    { required_tags := ["primary"], conflicting_tags := [], needed_roles := [],
      groups := ["attribute"] }
  let e := e.add_tag ("antimemetic")
    { required_tags := ["primary"], conflicting_tags := [], needed_roles := [],
      groups := ["attribute"] }
  let e := e.add_tag ("electronic")
    { required_tags := ["primary"], conflicting_tags := [], needed_roles := [],
      groups := ["attribute"] }
  let e := e.add_tag ("humanoid")
    { required_tags := ["primary"], conflicting_tags := [], needed_roles := [],
      groups := ["attribute"] }
  let e := e.add_tag ("ontokinetic")
    { required_tags := ["primary"], conflicting_tags := [], needed_roles := [],
      groups := ["attribute"] }
  let e := e.add_tag ("global-occult-coalition")
    { required_tags := [], conflicting_tags := [], needed_roles := [],
      groups := ["goi"] }
  let e := e.add_tag ("marshall-carter-and-dark")
    { required_tags := [], conflicting_tags := [], needed_roles := [],
      groups := ["goi"] }
  let e := e.add_tag ("serpents-hand")
    { required_tags := [], conflicting_tags := [], needed_roles := [],
      groups := ["goi"] }
  let e := e.add_tag ("co-authored") emptyTemplate
  let e := e.add_tag ("admin")
    { required_tags := ["primary"], conflicting_tags := [], needed_roles := ["admin"],
      groups := [] }
  let e := e.add_tag ("doomsday2018")
    { required_tags := [], conflicting_tags := ["contests"], needed_roles := ["locked"],
      groups := ["contests"] }
  let e := e.add_tag ("cliche2019")
    { required_tags := [], conflicting_tags := ["contests"], needed_roles := ["locked"],
      groups := ["contests"] }
  let e := e.add_group ("attribute")
  let e := e.add_group ("contests")
  let e := e.add_group ("licensing")
  let e := e.add_group ("primary")
  let e := e.add_role ("admin")
  let e := e.add_role ("moderator")
  let e := e.add_role ("licensing")
  let e := e.add_role ("member")
  let e := e.add_role ("locked")
  e

/-- Association lookup returns `none` exactly when no entry bears the key. -/
theorem lookupSpec_none_iff (l : List (String × TagSpec)) (k : String) :
    lookupSpec l k = none ↔ ∀ p ∈ l, p.1 ≠ k := by
  induction l with
  | nil => simp [lookupSpec]
  | cons p rest ih =>
    obtain ⟨k', v'⟩ := p
    by_cases h : k' = k
    · subst h
      simp [lookupSpec]
    · simp [lookupSpec, h, ih]

/-- Association lookup commutes with a value-only map. -/
theorem lookupSpec_map (f : TagSpec → TagSpec) (l : List (String × TagSpec)) (t : String) :
    lookupSpec (l.map (fun p => (p.1, f p.2))) t = (lookupSpec l t).map f := by
  induction l with
  | nil => rfl
  | cons p rest ih =>
    obtain ⟨k', v'⟩ := p
    by_cases h : k' = t
    · subst h
      simp [lookupSpec]
    · simp [lookupSpec, h, ih]

/-- Membership after a set insert comes from the old set or is the new
element. -/
theorem mem_insertName {x : String} {l : List String} {n : String}
    (h : x ∈ insertName l n) : x ∈ l ∨ x = n := by
  unfold insertName at h
  split at h
  · exact Or.inl h
  · rcases List.mem_append.mp h with h' | h'
    · exact Or.inl h'
    · exact Or.inr (List.mem_singleton.mp h')

/-- Old members survive a set insert. -/
theorem mem_insertName_of_mem {x : String} {l : List String} (n : String)
    (h : x ∈ l) : x ∈ insertName l n := by
  unfold insertName
  split
  · exact h
  · exact List.mem_append.mpr (Or.inl h)

/-- The inserted name is a member of the set insert. -/
theorem mem_insertName_self (l : List String) (n : String) : n ∈ insertName l n := by
  unfold insertName
  split
  · assumption
  · exact List.mem_append.mpr (Or.inr (List.mem_singleton.mpr rfl))

/-- Membership after an association insert comes from the old list or is
the inserted pair. -/
theorem mem_insertSpec {p : String × TagSpec} {l : List (String × TagSpec)}
    {k : String} {v : TagSpec} (h : p ∈ insertSpec l k v) : p = (k, v) ∨ p ∈ l := by
  induction l with
  | nil => simp [insertSpec] at h; simp [h]
  | cons q rest ih =>
    obtain ⟨k', v'⟩ := q
    unfold insertSpec at h
    split at h
    · rcases List.mem_cons.mp h with h' | h'
      · exact Or.inl h'
      · exact Or.inr (List.mem_cons_of_mem _ h')
    · rcases List.mem_cons.mp h with h' | h'
      · exact Or.inr (h' ▸ List.mem_cons_self _ _)
      · rcases ih h' with h'' | h''
        · exact Or.inl h''
        · exact Or.inr (List.mem_cons_of_mem _ h'')

/-- The registered-role preflight passes when every held role is
registered. -/
theorem rolesRegisteredCheck_ok (e : Engine) (roles : List String)
    (h : ∀ r ∈ roles, r ∈ e.roles) : rolesRegisteredCheck e roles = .ok () := by
  induction roles with
  | nil => rfl
  | cons r rest ih =>
    unfold rolesRegisteredCheck
    rw [if_pos (h r (List.mem_cons_self r rest))]
    exact ih (fun x hx => h x (List.mem_cons_of_mem r hx))

/-- The overlap preflight passes when the added and removed lists are
disjoint. -/
theorem addedRemovedCheck_ok (added removed : List String)
    (h : ∀ a ∈ added, a ∉ removed) : addedRemovedCheck added removed = .ok () := by
  induction added with
  | nil => rfl
  | cons a rest ih =>
    unfold addedRemovedCheck
    rw [if_neg (h a (List.mem_cons_self a rest))]
    exact ih (fun x hx => h x (List.mem_cons_of_mem a hx))

/-- C1: the role gate misfires on freely-changeable tags.  In the
canonical registry, removing `serpents-hand` (whose spec has an empty
`needed_roles`) from the tagset `[tale, serpents-hand]` while holding no
roles fails with `MissingRoles([])`: `check_roles` scans the held roles
for a member of `needed_roles` and, finding none (vacuously, since
`needed_roles` is empty), returns the error; the spec and the repository's
own test `test_good_changes` expect success for this very call. -/
theorem c1_empty_needed_roles_gate_fails :
    setup.check_tag_changes ["tale", "serpents-hand"] [] ["serpents-hand"] [] =
      .error (Error.MissingRoles []) := by
  rfl

/-- C2: the spec-section-8 scenario 5 call.  Adding `doomsday2018`
(which needs role `locked`) to the current tagset `[scp]` while holding
only role `member` returns success, not `MissingRoles([locked])`: the
engine's per-tag loop evaluates only the specs of tags in the current
tagset, so the spec (and role gate) of the added-only tag `doomsday2018`
is never consulted.  The spec and the repository's own test
`test_bad_changes` expect `MissingRoles([Role("locked")])` here. -/
theorem c2_added_only_tag_role_gate_not_enforced :
    setup.check_tag_changes ["scp"] ["doomsday2018"] [] ["member"] = .ok () := by
  rfl

/-- C4 counterexample: a member of `list` that equals `check` is counted
without any spec lookup (the Rust `||` short-circuits), so a group in the
list does not always yield `MissingTag`: `primary` is a registered group,
yet `count_tag(primary, [primary])` returns `Ok(1)`. -/
theorem c4_group_equal_check_counted_not_error :
    setup.is_group ("primary") = true ∧
      setup.count_tag ("primary") ["primary"] = .ok 1 := by
  exact ⟨rfl, rfl⟩

/-- C5: state validation is exactly the trivial transition: for every
registry and tag list, `check_tags(T)` returns the same result as
`check_tag_changes(T, [], [], [])`. -/
theorem c5_check_tags_eq_trivial_transition (e : Engine) (tags : List String) :
    e.check_tags tags = e.check_tag_changes tags [] [] [] := by
  have aux : ∀ l, checkTagsAux e tags l = checkChangesAux e tags [] [] [] l := by
    intro l
    induction l with
    | nil => rfl
    | cons t rest ih =>
      simp only [checkTagsAux, checkChangesAux, TagSpec.check_tags]
      cases e.get_spec t with
      | error err => rfl
      | ok s =>
        dsimp only
        cases s.check_tag_changes e tags [] [] [] with
        | error err => rfl
        | ok u => exact ih
  simp only [Engine.check_tags, Engine.check_tag_changes, rolesRegisteredCheck,
    addedRemovedCheck]
  exact aux tags

/-- C9: with an empty current tagset, every transition whose held roles
are all registered and whose added and removed lists are disjoint
succeeds, whatever the added and removed tags are: the per-tag loop
iterates over the current tagset only, so the specs of added-only tags
are never evaluated. -/
theorem c9_empty_tagset_succeeds (e : Engine) (added removed roles : List String)
    (hroles : ∀ r ∈ roles, r ∈ e.roles) (hdisj : ∀ a ∈ added, a ∉ removed) :
    e.check_tag_changes [] added removed roles = .ok () := by
  unfold Engine.check_tag_changes
  rw [rolesRegisteredCheck_ok e roles hroles, addedRemovedCheck_ok added removed hdisj]
  rfl

/-- C9 witness: in the canonical registry, the transition from the empty
tagset that adds the unregistered tag `badass` and removes `tale`, with
held role `member`, succeeds. -/
theorem c9_empty_tagset_succeeds_witness :
    setup.check_tag_changes [] ["badass"] ["tale"] ["member"] = .ok () :=
  c9_empty_tagset_succeeds setup ["badass"] ["tale"] ["member"]
    (by decide) (by decide)

/-- C10: deleting a group's name through `delete_tag` removes the name
from the tag set and strips it from every surviving spec's
`required_tags` and `conflicting_tags`, while the `groups` (and
`needed_roles` and `tag`) fields of every spec are left untouched — so
specs retain references to the deleted group in their `groups` field. -/
theorem c10_delete_tag_group_effects (e : Engine) (g : String)
    (hg : e.is_group g = true) :
    (e.delete_tag g).tags = e.tags.filter (fun t => t ≠ g) ∧
      ∀ t, lookupSpec (e.delete_tag g).specs t =
        (lookupSpec e.specs t).map (fun s =>
          { s with
            required_tags := s.required_tags.filter (fun x => x ≠ g)
            conflicting_tags := s.conflicting_tags.filter (fun x => x ≠ g) }) := by
  have hnone : lookupSpec e.specs g = none := by
    unfold Engine.is_group at hg
    exact Option.isNone_iff_eq_none.mp (Bool.and_elim_right hg)
  have hkeys : ∀ p ∈ e.specs, p.1 ≠ g := (lookupSpec_none_iff e.specs g).mp hnone
  have hfilter : e.specs.filter (fun p => p.1 ≠ g) = e.specs := by
    apply List.filter_eq_self.mpr
    intro p hp
    exact decide_eq_true (hkeys p hp)
  constructor
  · rfl
  · intro t
    show lookupSpec ((e.specs.filter (fun p => p.1 ≠ g)).map
      (fun p => (p.1, pruneDeletedTag g p.2))) t = _
    rw [hfilter, lookupSpec_map]
    rfl

/-- C10 witness: deleting the registered group `primary` from the
canonical registry. -/
theorem c10_delete_tag_group_effects_witness :
    (setup.delete_tag ("primary")).tags = setup.tags.filter (fun t => t ≠ "primary") ∧
      ∀ t, lookupSpec (setup.delete_tag ("primary")).specs t =
        (lookupSpec setup.specs t).map (fun s =>
          { s with
            required_tags := s.required_tags.filter (fun x => x ≠ "primary")
            conflicting_tags := s.conflicting_tags.filter (fun x => x ≠ "primary") }) :=
  c10_delete_tag_group_effects setup ("primary") (by decide)

/-- Outcome of a compare-against-limit gate returning a fixed error. -/
theorem if_count_gate (n L : Nat) (err : Error) :
    ((if n > L then (Except.error err : Except Error Unit) else Except.ok ()) =
        Except.error err ↔ L < n) ∧
    ((if n > L then (Except.error err : Except Error Unit) else Except.ok ()) =
        Except.ok () ↔ n ≤ L) := by
  by_cases h : n > L
  · rw [if_pos h]
    constructor
    · exact ⟨fun _ => h, fun _ => rfl⟩
    · constructor
      · intro hc
        exact absurd hc (by simp)
      · intro hc
        omega
  · rw [if_neg h]
    constructor
    · constructor
      · intro hc
        exact absurd hc (by simp)
      · intro hc
        omega
    · exact ⟨fun _ => by omega, fun _ => rfl⟩

/-- C3: the conflict gate characterization.  Whenever the limit inputs
and the effective count of a conflicting entry `c` are defined, one
iteration of the conflicts loop fails with `IncompatibleTags(t, c)`
exactly when the effective count of `c` exceeds the limit — 1 when `c` is
a registered group and the evaluated tag is effectively present
(`check_tag(t, T) ∨ check_tag(t, A)`), 0 otherwise — and succeeds exactly
when the count is within the limit.  In particular (group
self-tolerance), a registered tag whose spec has no requirements and
declares conflict only with a group `g` that it itself belongs to via its
`groups` passes `check_tags([t])`. -/
theorem c3_conflict_limit_characterization :
    (∀ (e : Engine) (s : TagSpec) (tags added removed : List String) (c : String)
        (n : Nat) (b1 b2 : Bool),
      e.check_tag s.tag tags = .ok b1 →
      e.check_tag s.tag added = .ok b2 →
      countTags e tags added removed c = .ok n →
      ((checkOneConflict e s tags added removed c =
          .error (Error.IncompatibleTags s.tag c) ↔
          (if e.is_group c && (b1 || b2) then 1 else 0) < n) ∧
        (checkOneConflict e s tags added removed c = .ok () ↔
          n ≤ (if e.is_group c && (b1 || b2) then 1 else 0)))) ∧
    (∀ (e : Engine) (t g : String) (s : TagSpec),
      lookupSpec e.specs t = some s →
      s.tag = t →
      s.required_tags = [] →
      s.conflicting_tags = [g] →
      g ∈ s.groups →
      e.is_group g = true →
      e.check_tags [t] = .ok ()) := by
  constructor
  · intro e s tags added removed c n b1 b2 hb1 hb2 hn
    have hlimit : conflictLimit e s tags added c =
        .ok (if e.is_group c && (b1 || b2) then 1 else 0) := by
      unfold conflictLimit
      by_cases hg : e.is_group c
      · rw [if_pos hg, hb1]
        dsimp only
        rw [hb2]
        dsimp only
        simp [hg]
      · rw [if_neg hg]
        simp only [Bool.not_eq_true] at hg
        simp [hg]
    have key : checkOneConflict e s tags added removed c =
        (if n > (if e.is_group c && (b1 || b2) then 1 else 0) then
          Except.error (Error.IncompatibleTags s.tag c) else Except.ok ()) := by
      unfold checkOneConflict
      rw [hlimit]
      dsimp only
      rw [hn]
    rw [key]
    exact if_count_gate n (if e.is_group c && (b1 || b2) then 1 else 0)
      (Error.IncompatibleTags s.tag c)
  · intro e t g s hlook htag hreq hconf hgroups hg
    have hnoneg : lookupSpec e.specs g = none := by
      unfold Engine.is_group at hg
      exact Option.isNone_iff_eq_none.mp (Bool.and_elim_right hg)
    have htne : t ≠ g := by
      intro h
      rw [h, hnoneg] at hlook
      exact Option.noConfusion hlook
    have hspec : e.get_spec t = .ok s := by
      unfold Engine.get_spec
      rw [hlook]
    have hisgt : e.is_group t = false := by
      unfold Engine.is_group
      rw [hlook]
      simp
    have hcount : e.count_tag g [t] = .ok 1 := by
      unfold Engine.count_tag
      rw [if_neg htne, hspec]
      dsimp only
      rw [if_pos hgroups]
      rfl
    have hcheckcur : e.check_tag s.tag [t] = .ok true := by
      unfold Engine.check_tag
      rw [htag, hisgt]
      simp
    have hcheckadd : e.check_tag s.tag [] = .ok false := by
      unfold Engine.check_tag
      rw [htag, hisgt]
      simp
    unfold Engine.check_tags checkTagsAux
    rw [hspec]
    dsimp only
    unfold TagSpec.check_tags TagSpec.check_tag_changes
    simp only [addedRemovedCheck, List.not_mem_nil, or_self, if_false]
    rw [hreq, hconf]
    simp only [checkRequired, checkConflicts, checkOneConflict, conflictLimit]
    rw [if_pos hg, hcheckcur]
    dsimp only
    rw [hcheckadd]
    dsimp only
    unfold countTags
    simp only [List.not_mem_nil, if_false]
    rw [hcount]
    rfl

/-- The spec that the canonical registry holds for the tag `scp`. -/
def scpSpec : TagSpec :=
  TagSpec.from_template ("scp")
    { required_tags := [], conflicting_tags := ["primary"], needed_roles := [],
      groups := ["primary"] }

/-- C3 witness: the conflict characterization instantiated for the tag
`scp` against the conflicting group `primary` in the canonical registry,
and the group self-tolerance of `check_tags([scp])`. -/
theorem c3_conflict_limit_characterization_witness :
    ((checkOneConflict setup scpSpec ["scp"] [] [] ("primary") =
        .error (Error.IncompatibleTags scpSpec.tag ("primary")) ↔
        (if setup.is_group ("primary") && (true || false) then 1 else 0) < 1) ∧
      (checkOneConflict setup scpSpec ["scp"] [] [] ("primary") = .ok () ↔
        1 ≤ (if setup.is_group ("primary") && (true || false) then 1 else 0))) ∧
    setup.check_tags ["scp"] = .ok () :=
  ⟨c3_conflict_limit_characterization.1 setup scpSpec ["scp"] [] [] ("primary")
      1 true false rfl rfl rfl,
    c3_conflict_limit_characterization.2 setup ("scp") ("primary") scpSpec
      rfl rfl rfl rfl (by decide) rfl⟩

/-- The per-member counting predicate of `count_tag`: a member counts
when it equals the checked name or when its spec declares the checked
name among its groups. -/
def countPredicate (e : Engine) (check : String) (x : String) : Bool :=
  decide (x = check) ||
    (match lookupSpec e.specs x with
     | some s => decide (check ∈ s.groups)
     | none => false)

/-- The condition under which a list member makes `count_tag` fail: it
differs from the checked name and has no spec entry. -/
def missingPredicate (e : Engine) (check : String) (y : String) : Bool :=
  !(decide (y = check)) && (lookupSpec e.specs y).isNone

/-- C4 (amended): `count_tag(check, list)` returns `MissingTag(x)` for
the first member `x` of `list` other than `check` itself that is not a
registered proper tag; members equal to `check` are counted without any
spec lookup.  When every member other than `check` has a spec, the result
is the number of members that equal `check` or whose spec declares
`check` among its groups, counted with multiplicity. -/
theorem c4_count_tag_characterization :
    (∀ (e : Engine) (check : String) (l : List String),
      (∀ x ∈ l, x ≠ check → (lookupSpec e.specs x).isSome = true) →
      e.count_tag check l = .ok (l.countP (countPredicate e check))) ∧
    (∀ (e : Engine) (check : String) (l : List String) (x : String),
      l.find? (missingPredicate e check) = some x →
      e.count_tag check l = .error (Error.MissingTag x)) := by
  constructor
  · intro e check l h
    induction l with
    | nil => rfl
    | cons t rest ih =>
      have hrest := ih (fun x hx hne => h x (List.mem_cons_of_mem t hx) hne)
      rw [List.countP_cons]
      by_cases ht : t = check
      · unfold Engine.count_tag
        rw [if_pos ht, hrest]
        have hp : countPredicate e check t = true := by
          unfold countPredicate
          rw [decide_eq_true ht]
          rfl
        rw [hp]
        simp
      · have hsome := h t (List.mem_cons_self t rest) ht
        obtain ⟨s, hs⟩ := Option.isSome_iff_exists.mp hsome
        have hspec : e.get_spec t = .ok s := by
          unfold Engine.get_spec
          rw [hs]
        unfold Engine.count_tag
        rw [if_neg ht, hspec]
        dsimp only
        by_cases hgrp : check ∈ s.groups
        · rw [if_pos hgrp, hrest]
          have hp : countPredicate e check t = true := by
            unfold countPredicate
            rw [hs]
            simp [hgrp]
          rw [hp]
          simp
        · rw [if_neg hgrp, hrest]
          have hp : countPredicate e check t = false := by
            unfold countPredicate
            rw [hs]
            simp [hgrp, ht]
          rw [hp]
          simp
  · intro e check l x h
    induction l with
    | nil => simp at h
    | cons y rest ih =>
      by_cases hp : missingPredicate e check y = true
      · rw [List.find?_cons_of_pos _ hp] at h
        have hxy : y = x := Option.some.inj h
        have hyne : ¬(y = check) := by
          unfold missingPredicate at hp
          intro hc
          rw [decide_eq_true hc] at hp
          simp at hp
        have hynone : lookupSpec e.specs y = none := by
          unfold missingPredicate at hp
          exact Option.isNone_iff_eq_none.mp (Bool.and_elim_right hp)
        unfold Engine.count_tag
        rw [if_neg hyne]
        unfold Engine.get_spec
        rw [hynone, hxy]
      · rw [List.find?_cons_of_neg _ hp] at h
        have hrest := ih h
        by_cases hyc : y = check
        · unfold Engine.count_tag
          rw [if_pos hyc, hrest]
        · have hsome : (lookupSpec e.specs y).isSome = true := by
            unfold missingPredicate at hp
            rw [decide_eq_false hyc] at hp
            simp at hp
            rw [Option.isSome_iff_ne_none]
            intro hc
            rw [hc] at hp
            simp at hp
          obtain ⟨s, hs⟩ := Option.isSome_iff_exists.mp hsome
          have hspec : e.get_spec y = .ok s := by
            unfold Engine.get_spec
            rw [hs]
          unfold Engine.count_tag
          rw [if_neg hyc, hspec]
          dsimp only
          by_cases hgrp : check ∈ s.groups
          · rw [if_pos hgrp, hrest]
          · rw [if_neg hgrp, hrest]

/-- C4 witness: in the canonical registry, counting group `primary` over
`[scp, tale]` (both proper tags in that group) gives the predicate count,
and counting it over `[scp, badass]` fails with `MissingTag(badass)`. -/
theorem c4_count_tag_characterization_witness :
    setup.count_tag ("primary") ["scp", "tale"] =
      .ok (List.countP (countPredicate setup ("primary")) ["scp", "tale"]) ∧
    setup.count_tag ("primary") ["scp", "badass"] =
      .error (Error.MissingTag ("badass")) :=
  ⟨c4_count_tag_characterization.1 setup ("primary") ["scp", "tale"] (by decide),
    c4_count_tag_characterization.2 setup ("primary") ["scp", "badass"] ("badass")
      (by decide)⟩

/-- A registry mutation call (the six public mutators of `Engine`). -/
inductive RegOp where
  | addTag : String → TemplateTagSpec → RegOp
  | deleteTag : String → RegOp
  | addGroup : String → RegOp
  | deleteGroup : String → RegOp
  | addRole : String → RegOp
  | deleteRole : String → RegOp
deriving DecidableEq, Repr

/-- Executes one registry mutation. -/
def runOp (e : Engine) : RegOp → Engine
  | .addTag n t => e.add_tag n t
  | .deleteTag n => e.delete_tag n
  | .addGroup n => e.add_group n
  | .deleteGroup n => e.delete_group n
  | .addRole n => e.add_role n
  | .deleteRole n => e.delete_role n

/-- Executes a sequence of registry mutations in order. -/
def runOps (e : Engine) : List RegOp → Engine
  | [] => e
  | op :: rest => runOps (runOp e op) rest

/-- Invariants I1 and I2 of the spec: every spec key is a registered
name, and a registered name is a group exactly when it has no spec
entry. -/
def RegInv (e : Engine) : Prop :=
  (∀ p ∈ e.specs, p.1 ∈ e.tags) ∧
  (∀ n ∈ e.tags, (e.is_group n = true ↔ lookupSpec e.specs n = none))

/-- Invariant I2 holds for every engine by definition of `is_group`. -/
theorem is_group_iff_no_spec (e : Engine) (n : String) (h : n ∈ e.tags) :
    e.is_group n = true ↔ lookupSpec e.specs n = none := by
  unfold Engine.is_group
  rw [decide_eq_true h, Bool.true_and]
  exact Option.isNone_iff_eq_none

/-- A sequence of mutations is good when every `delete_group` call in it
targets a name that has no spec entry at the moment of the call. -/
def GoodOps : Engine → List RegOp → Prop
  | _, [] => True
  | e, op :: rest =>
    (∀ g, op = RegOp.deleteGroup g → lookupSpec e.specs g = none) ∧
    GoodOps (runOp e op) rest

/-- Invariant I1 is preserved by any single mutation that is not a
`delete_group` of a spec-bearing name. -/
theorem specs_keys_in_tags_runOp {e : Engine} (h : ∀ p ∈ e.specs, p.1 ∈ e.tags)
    (op : RegOp) (hok : ∀ g, op = RegOp.deleteGroup g → lookupSpec e.specs g = none) :
    ∀ p ∈ (runOp e op).specs, p.1 ∈ (runOp e op).tags := by
  cases op with
  | addTag n t =>
    intro p hp
    rcases mem_insertSpec hp with h1 | h1
    · rw [h1]
      exact mem_insertName_self _ _
    · exact mem_insertName_of_mem _ (h p h1)
  | deleteTag n =>
    intro p hp
    simp only [runOp, Engine.delete_tag] at hp ⊢
    rcases List.mem_map.mp hp with ⟨q, hq, hpq⟩
    rcases List.mem_filter.mp hq with ⟨hq1, hq2⟩
    rw [← hpq]
    exact List.mem_filter.mpr ⟨h q hq1, hq2⟩
  | addGroup n =>
    intro p hp
    exact mem_insertName_of_mem _ (h p hp)
  | deleteGroup g =>
    intro p hp
    simp only [runOp, Engine.delete_group] at hp ⊢
    rcases List.mem_map.mp hp with ⟨q, hq, hpq⟩
    have hne : q.1 ≠ g := (lookupSpec_none_iff e.specs g).mp (hok g rfl) q hq
    rw [← hpq]
    exact List.mem_filter.mpr ⟨h q hq, decide_eq_true hne⟩
  | addRole n =>
    intro p hp
    exact h p hp
  | deleteRole r =>
    intro p hp
    rcases List.mem_map.mp hp with ⟨q, hq, hpq⟩
    rw [← hpq]
    exact h q hq

/-- C6 (amended): after any sequence of registry mutations starting from
the empty registry in which every `delete_group` call targets a name
without a spec entry at the time of the call, invariants I1 and I2 hold.
(Unrestricted `delete_group` can break I1: applied to a proper tag's name
it removes the name from `tags` but leaves its spec entry behind.) -/
theorem c6_invariants_good_sequences (ops : List RegOp)
    (h : GoodOps Engine.empty ops) : RegInv (runOps Engine.empty ops) := by
  have main : ∀ (l : List RegOp) (e : Engine),
      (∀ p ∈ e.specs, p.1 ∈ e.tags) → GoodOps e l →
      ∀ p ∈ (runOps e l).specs, p.1 ∈ (runOps e l).tags := by
    intro l
    induction l with
    | nil =>
      intro e he _
      exact he
    | cons op rest ih =>
      intro e he hg
      exact ih (runOp e op) (specs_keys_in_tags_runOp he op hg.1) hg.2
  constructor
  · refine main ops Engine.empty ?_ h
    intro p hp
    exact absurd hp (List.not_mem_nil p)
  · intro n hn
    exact is_group_iff_no_spec _ n hn

/-- The mutation sequence refuting the unrestricted claim: register a
proper tag `a`, then call `delete_group` on it. -/
def c6ops : List RegOp :=
  [RegOp.addTag ("a") emptyTemplate, RegOp.deleteGroup ("a")]

/-- C6 counterexample: the sequence `add_tag("a"); delete_group("a")` of
calls on the empty registry (with non-empty names) violates invariant I1:
the spec entry for `a` survives while `a` is no longer in the tag set. -/
theorem c6_delete_group_on_proper_tag_breaks_inv :
    ¬ RegInv (runOps Engine.empty c6ops) := by
  intro h
  have hmem : (("a" : String), TagSpec.from_template ("a") emptyTemplate) ∈
      (runOps Engine.empty c6ops).specs := by decide
  exact absurd (h.1 _ hmem) (by decide)

/-- A good mutation sequence exercising all six mutators. -/
def c6goodOps : List RegOp :=
  [RegOp.addTag ("a") emptyTemplate, RegOp.addGroup ("g"), RegOp.deleteGroup ("g"),
    RegOp.deleteTag ("a"), RegOp.addRole ("r"), RegOp.deleteRole ("r")]

/-- C6 witness: the invariants hold after a concrete good sequence that
uses every mutator. -/
theorem c6_invariants_good_sequences_witness :
    RegInv (runOps Engine.empty c6goodOps) :=
  c6_invariants_good_sequences c6goodOps
    ⟨fun g h => RegOp.noConfusion h,
      fun g h => RegOp.noConfusion h,
      fun g h => by
        injection h with h'
        subst h'
        decide,
      fun g h => RegOp.noConfusion h,
      fun g h => RegOp.noConfusion h,
      fun g h => RegOp.noConfusion h,
      trivial⟩

/-- One tag record of a declarative configuration (`TagConfig` in
`src/load.rs`). -/
structure TagConfig where
  name : String
  groups : Option (List String)
  roles : Option (List String)
  requires : Option (List String)
  conflicts_with : Option (List String)
deriving DecidableEq, Repr

/-- A declarative configuration (`Configuration` in `src/load.rs`). -/
structure Configuration where
  roles : List String
  tags : List TagConfig
deriving DecidableEq, Repr

/-- Role reconciliation (`Configuration::apply_roles`): deletes every
registered role absent from the configuration, then adds every configured
role not in the snapshot of previously registered roles. -/
def applyRoles (roles : List String) (e : Engine) : Engine :=
  roles.foldl
    (fun acc r => if r ∈ e.roles then acc else acc.add_role r)
    (e.roles.foldl (fun acc r => if r ∈ roles then acc else acc.delete_role r) e)

/-- Tag reconciliation (`Configuration::apply_tags`): calls `delete_tag`
on every registered name absent from the configured tag names, then adds
every configured tag not in the snapshot of previously registered names,
with an empty template. -/
def applyTags (tags : List TagConfig) (e : Engine) : Engine :=
  tags.foldl
    (fun acc c => if c.name ∈ e.tags then acc else acc.add_tag c.name emptyTemplate)
    (e.tags.foldl
      (fun acc t => if tags.any (fun c => decide (c.name = t)) then acc else acc.delete_tag t)
      e)

/-- Resolves a list of names through `get_tag`, failing with `NoSuchTag`
at the first unregistered one (the `requires`/`conflicts_with` loops of
`Configuration::update_tags`). -/
def resolveTags (e : Engine) : List String → Except Error (List String)
  | [] => .ok []
  | n :: rest =>
    match e.get_tag n with
    | .error err => .error err
    | .ok t =>
      match resolveTags e rest with
      | .error err => .error err
      | .ok ts => .ok (t :: ts)

/-- Resolves a list of names through `get_role`, failing with
`NoSuchRole` at the first unregistered one (the `roles` loop of
`Configuration::update_tags`). -/
def resolveRoles (e : Engine) : List String → Except Error (List String)
  | [] => .ok []
  | n :: rest =>
    match e.get_role n with
    | .error err => .error err
    | .ok r =>
      match resolveRoles e rest with
      | .error err => .error err
      | .ok rs => .ok (r :: rs)

/-- Resolves the `groups` list of `Configuration::update_tags`: each
name is looked up through `get_tag` and, when absent, implicitly
registered as a new group; the (possibly mutated) engine is threaded
through. -/
def resolveGroups (e : Engine) : List String → Engine × List String
  | [] => (e, [])
  | n :: rest =>
    match e.get_tag n with
    | .ok _ =>
      match resolveGroups e rest with
      | (e2, gs) => (e2, n :: gs)
    | .error _ =>
      match resolveGroups (e.add_group n) rest with
      | (e2, gs) => (e2, n :: gs)

/-- Overwrites one field of a registered spec through `get_spec_mut`;
fails with `MissingTag` when the name has no spec entry. -/
def updateSpec (e : Engine) (t : String) (f : TagSpec → TagSpec) : Except Error Engine :=
  match lookupSpec e.specs t with
  | none => .error (Error.MissingTag t)
  | some s => .ok { e with specs := insertSpec e.specs t (f s) }

/-- The body of the `Configuration::update_tags` loop for one configured
tag: resolves and overwrites `required_tags`, `conflicting_tags`,
`groups` (implicitly creating missing groups) and `needed_roles`, in the
source's order. -/
def updateOne (e : Engine) (c : TagConfig) : Except Error Engine :=
  match e.get_tag c.name with
  | .error err => .error err
  | .ok current =>
    match resolveTags e (c.requires.getD []) with
    | .error err => .error err
    | .ok reqs =>
      match updateSpec e current (fun s => { s with required_tags := reqs }) with
      | .error err => .error err
      | .ok e1 =>
        match resolveTags e1 (c.conflicts_with.getD []) with
        | .error err => .error err
        | .ok confs =>
          match updateSpec e1 current (fun s => { s with conflicting_tags := confs }) with
          | .error err => .error err
          | .ok e2 =>
            match resolveGroups e2 (c.groups.getD []) with
            | (e3, gs) =>
              match updateSpec e3 current (fun s => { s with groups := gs }) with
              | .error err => .error err
              | .ok e4 =>
                match resolveRoles e4 (c.roles.getD []) with
                | .error err => .error err
                | .ok rs => updateSpec e4 current (fun s => { s with needed_roles := rs })

/-- The spec-update pass (`Configuration::update_tags`): processes the
configured tags in order, stopping at the first error. -/
def updateTags (configs : List TagConfig) (e : Engine) : Except Error Engine :=
  match configs with
  | [] => .ok e
  | c :: rest =>
    match updateOne e c with
    | .error err => .error err
    | .ok e1 => updateTags rest e1

/-- The message of the `expect` call in `Configuration::apply`. -/
def panicMessage : String := "Unable to update tag data"

/-- Configuration reconciliation (`Configuration::apply`): role pass,
tag pass, then the spec-update pass.  The Rust function returns no
result; it unwraps the spec-update pass with
`expect("Unable to update tag data")`, so an update error aborts the
process — modelled here by the `.error panicMessage` outcome, which
discards the underlying error value. -/
def Configuration.apply (cfg : Configuration) (e : Engine) : Except String Engine :=
  match updateTags cfg.tags (applyTags cfg.tags (applyRoles cfg.roles e)) with
  | .ok e3 => .ok e3
  | .error _ => .error panicMessage

/-- Folding a tag-preserving step over a list preserves the tag set. -/
theorem foldl_tags_const {α : Type} (f : Engine → α → Engine)
    (hf : ∀ acc x, (f acc x).tags = acc.tags) :
    ∀ (l : List α) (acc : Engine), (l.foldl f acc).tags = acc.tags := by
  intro l
  induction l with
  | nil => intro acc; rfl
  | cons x rest ih =>
    intro acc
    rw [List.foldl_cons, ih, hf]

/-- The role pass never changes the tag set. -/
theorem applyRoles_tags (roles : List String) (e : Engine) :
    (applyRoles roles e).tags = e.tags := by
  unfold applyRoles
  rw [foldl_tags_const _ (by intro acc x; split <;> rfl),
    foldl_tags_const _ (by intro acc x; split <;> rfl)]

/-- The deletion fold of the tag pass never resurrects an absent name. -/
theorem delete_fold_preserves {configs : List TagConfig} {t : String} :
    ∀ (l : List String) (acc : Engine), t ∉ acc.tags →
      t ∉ (l.foldl (fun acc x =>
        if configs.any (fun c => decide (c.name = x)) then acc
        else acc.delete_tag x) acc).tags := by
  intro l
  induction l with
  | nil =>
    intro acc h
    exact h
  | cons x rest ih =>
    intro acc h
    rw [List.foldl_cons]
    apply ih
    split
    · exact h
    · intro hc
      rcases List.mem_filter.mp hc with ⟨hc1, _⟩
      exact h hc1

/-- The deletion fold of the tag pass removes every processed name that
no configured tag bears. -/
theorem delete_fold_removes {configs : List TagConfig} {t : String}
    (hany : configs.any (fun c => decide (c.name = t)) = false) :
    ∀ (l : List String) (acc : Engine), t ∈ l →
      t ∉ (l.foldl (fun acc x =>
        if configs.any (fun c => decide (c.name = x)) then acc
        else acc.delete_tag x) acc).tags := by
  intro l
  induction l with
  | nil =>
    intro acc h
    exact absurd h (List.not_mem_nil t)
  | cons x rest ih =>
    intro acc hmem
    rw [List.foldl_cons]
    by_cases hx : x = t
    · subst hx
      rw [hany]
      simp only [Bool.false_eq_true, if_false]
      apply delete_fold_preserves
      intro hc
      rcases List.mem_filter.mp hc with ⟨_, hc2⟩
      simp at hc2
    · have hrest : t ∈ rest := by
        rcases List.mem_cons.mp hmem with h | h
        · exact absurd h.symm hx
        · exact h
      exact ih _ hrest

/-- The addition fold of the tag pass adds only configured names. -/
theorem add_fold_not_mem {extant : List String} {t : String} :
    ∀ (configs : List TagConfig) (acc : Engine), t ∉ acc.tags →
      (∀ c ∈ configs, c.name ≠ t) →
      t ∉ (configs.foldl (fun acc c =>
        if c.name ∈ extant then acc else acc.add_tag c.name emptyTemplate) acc).tags := by
  intro configs
  induction configs with
  | nil =>
    intro acc h _
    exact h
  | cons c rest ih =>
    intro acc h hn
    rw [List.foldl_cons]
    apply ih _ _ (fun c' hc' => hn c' (List.mem_cons_of_mem c hc'))
    split
    · exact h
    · intro hc
      rcases mem_insertName hc with h1 | h1
      · exact h h1
      · exact hn c (List.mem_cons_self c rest) h1.symm

/-- The tag pass deletes every registered name absent from the
configured tag names — groups included. -/
theorem applyTags_not_mem (configs : List TagConfig) (e : Engine) (t : String)
    (ht : t ∈ e.tags) (hn : ∀ c ∈ configs, c.name ≠ t) :
    t ∉ (applyTags configs e).tags := by
  unfold applyTags
  have hany : configs.any (fun c => decide (c.name = t)) = false := by
    rw [List.any_eq_false]
    intro c hc
    simp [hn c hc]
  exact add_fold_not_mem configs _ (delete_fold_removes hany e.tags e ht) hn

/-- A spec-field overwrite leaves the tag set unchanged. -/
theorem updateSpec_tags {e e' : Engine} {t : String} {f : TagSpec → TagSpec}
    (h : updateSpec e t f = .ok e') : e'.tags = e.tags := by
  unfold updateSpec at h
  split at h
  · exact Except.noConfusion h
  · injection h with h'
    rw [← h']

/-- Group resolution only adds names from the processed list to the tag
set. -/
theorem resolveGroups_tags {t : String} : ∀ (gs : List String) (e : Engine),
    t ∈ (resolveGroups e gs).1.tags → t ∈ e.tags ∨ t ∈ gs := by
  intro gs
  induction gs with
  | nil =>
    intro e h
    exact Or.inl h
  | cons n rest ih =>
    intro e h
    unfold resolveGroups at h
    split at h
    · split at h
      next e2 gs2 heq =>
        have h2 : t ∈ (resolveGroups e rest).1.tags := by
          rw [heq]
          exact h
        rcases ih e h2 with h3 | h3
        · exact Or.inl h3
        · exact Or.inr (List.mem_cons_of_mem n h3)
    · split at h
      next e2 gs2 heq =>
        have h2 : t ∈ (resolveGroups (e.add_group n) rest).1.tags := by
          rw [heq]
          exact h
        rcases ih (e.add_group n) h2 with h3 | h3
        · rcases mem_insertName h3 with h4 | h4
          · exact Or.inl h4
          · exact Or.inr (h4 ▸ List.mem_cons_self n rest)
        · exact Or.inr (List.mem_cons_of_mem n h3)

/-- One spec-update step adds to the tag set only names from the
configured tag's `groups` list. -/
theorem updateOne_not_mem {e e' : Engine} {c : TagConfig} {t : String}
    (h : updateOne e c = .ok e') (ht : t ∉ e.tags)
    (hg : ∀ g ∈ c.groups.getD [], g ≠ t) : t ∉ e'.tags := by
  unfold updateOne at h
  split at h
  · exact Except.noConfusion h
  · split at h
    · exact Except.noConfusion h
    · split at h
      · exact Except.noConfusion h
      next e1 heq1 =>
        split at h
        · exact Except.noConfusion h
        · split at h
          · exact Except.noConfusion h
          next e2 heq2 =>
            split at h
            next e3 gs heq3 =>
              split at h
              · exact Except.noConfusion h
              next e4 heq4 =>
                split at h
                · exact Except.noConfusion h
                · have ht1 : t ∉ e1.tags := by
                    rw [updateSpec_tags heq1]
                    exact ht
                  have ht2 : t ∉ e2.tags := by
                    rw [updateSpec_tags heq2]
                    exact ht1
                  have ht3 : t ∉ e3.tags := by
                    intro hc
                    have hc' : t ∈ (resolveGroups e2 (c.groups.getD [])).1.tags := by
                      rw [heq3]
                      exact hc
                    rcases resolveGroups_tags _ e2 hc' with h5 | h5
                    · exact ht2 h5
                    · exact hg t h5 rfl
                  have ht4 : t ∉ e4.tags := by
                    rw [updateSpec_tags heq4]
                    exact ht3
                  rw [updateSpec_tags h]
                  exact ht4

/-- The spec-update pass adds to the tag set only names from the
configured `groups` lists. -/
theorem updateTags_not_mem : ∀ (configs : List TagConfig) (e e' : Engine) (t : String),
    updateTags configs e = .ok e' → t ∉ e.tags →
    (∀ c ∈ configs, ∀ g ∈ c.groups.getD [], g ≠ t) → t ∉ e'.tags := by
  intro configs
  induction configs with
  | nil =>
    intro e e' t h ht _
    unfold updateTags at h
    injection h with h'
    rw [← h']
    exact ht
  | cons c rest ih =>
    intro e e' t h ht hg
    unfold updateTags at h
    split at h
    · exact Except.noConfusion h
    next e1 heq =>
      exact ih e1 e' t h
        (updateOne_not_mem heq ht (hg c (List.mem_cons_self c rest)))
        (fun c' hc' => hg c' (List.mem_cons_of_mem c hc'))

/-- C7 (amended): the reconciler's tag pass deletes every registered
name — proper tag or group — whose name is absent from the
configuration's tag list, and a deleted name stays out unless some
configured tag re-creates it through its `groups` list: whenever `apply`
succeeds, a previously registered name that is neither a configured tag
name nor listed in any configured `groups` is no longer registered. -/
theorem c7_apply_deletes_absent_names (cfg : Configuration) (e e' : Engine) (t : String)
    (ht : t ∈ e.tags)
    (hnames : ∀ c ∈ cfg.tags, c.name ≠ t)
    (hgroups : ∀ c ∈ cfg.tags, ∀ g ∈ c.groups.getD [], g ≠ t)
    (happ : Configuration.apply cfg e = .ok e') :
    t ∉ e'.tags := by
  unfold Configuration.apply at happ
  split at happ
  next e3 heq =>
    injection happ with h'
    rw [← h']
    refine updateTags_not_mem cfg.tags _ e3 t heq ?_ hgroups
    apply applyTags_not_mem cfg.tags _ t ?_ hnames
    rw [applyRoles_tags]
    exact ht
  next err heq => exact Except.noConfusion happ

/-- A registry holding only the group `g`. -/
def c7engine : Engine := Engine.empty.add_group ("g")

/-- A configuration declaring the single tag `a` and no roles. -/
def c7cfg : Configuration :=
  { roles := []
    tags := [{ name := "a", groups := none, roles := none, requires := none,
               conflicts_with := none }] }

/-- C7 counterexample: applying a configuration whose tag list does not
mention the registered group `g` deletes that group — after `apply`, the
registry's tag set is exactly `[a]`, with `g` gone.  The claim that
`Configuration::apply` never deletes a group is false. -/
theorem c7_apply_deletes_group :
    c7engine.is_group ("g") = true ∧
      (Configuration.apply c7cfg c7engine).toOption.map Engine.tags = some ["a"] := by
  exact ⟨rfl, rfl⟩

/-- The registry produced by the counterexample reconciliation. -/
def c7result : Engine :=
  match Configuration.apply c7cfg c7engine with
  | .ok e => e
  | .error _ => Engine.empty

/-- C7 witness: the amended deletion property applied to the group `g`
of the concrete counterexample reconciliation. -/
theorem c7_apply_deletes_absent_names_witness : ("g" : String) ∉ c7result.tags :=
  c7_apply_deletes_absent_names c7cfg c7engine c7result ("g")
    (by decide) (by decide) (by decide) rfl

/-- The tag config requesting an unregistered requirement. -/
def c8tc : TagConfig :=
  { name := "a", groups := none, roles := none, requires := some ["missing"],
    conflicts_with := none }

/-- A configuration whose single tag requires an unregistered name. -/
def c8cfg : Configuration := { roles := [], tags := [c8tc] }

/-- C8 counterexample: applying `c8cfg` to the empty registry does not
return `NoSuchTag` from `apply`: the spec-update pass returns
`NoSuchTag("missing")`, but `apply` unwraps it with `expect`, so the
operation aborts with the panic message instead of delivering the error
value to the caller. -/
theorem c8_apply_panics :
    Configuration.apply c8cfg Engine.empty = .error panicMessage ∧
      updateTags c8cfg.tags (applyTags c8cfg.tags (applyRoles c8cfg.roles Engine.empty)) =
        .error (Error.NoSuchTag ("missing")) := by
  exact ⟨rfl, rfl⟩

/-- C8 (amended): an unregistered name in a configured tag's `requires`
makes the spec-update pass return `NoSuchTag` as an error value, and any
error of the spec-update pass makes `Configuration::apply` abort with
the `expect` panic rather than return the error. -/
theorem c8_no_such_tag_returned_then_panic :
    (∀ (e : Engine) (c : TagConfig) (n : String),
      c.name ∈ e.tags → c.requires = some [n] → n ∉ e.tags →
      updateOne e c = .error (Error.NoSuchTag n)) ∧
    (∀ (cfg : Configuration) (e : Engine) (err : Error),
      updateTags cfg.tags (applyTags cfg.tags (applyRoles cfg.roles e)) = .error err →
      Configuration.apply cfg e = .error panicMessage) := by
  constructor
  · intro e c n hc hreq hn
    have hget : e.get_tag c.name = .ok c.name := by
      unfold Engine.get_tag
      rw [if_pos hc]
    have hres : resolveTags e [n] = .error (Error.NoSuchTag n) := by
      unfold resolveTags Engine.get_tag
      rw [if_neg hn]
    unfold updateOne
    rw [hget]
    dsimp only
    rw [hreq]
    dsimp only [Option.getD]
    rw [hres]
  · intro cfg e err h
    unfold Configuration.apply
    rw [h]

/-- C8 witness: the amended property applied to the concrete
configuration requiring the unregistered name `missing`. -/
theorem c8_no_such_tag_returned_then_panic_witness :
    updateOne (Engine.empty.add_tag ("a") emptyTemplate) c8tc =
      .error (Error.NoSuchTag ("missing")) ∧
    Configuration.apply c8cfg Engine.empty = .error panicMessage :=
  ⟨c8_no_such_tag_returned_then_panic.1 (Engine.empty.add_tag ("a") emptyTemplate)
      c8tc ("missing") (by decide) rfl (by decide),
    c8_no_such_tag_returned_then_panic.2 c8cfg Engine.empty
      (Error.NoSuchTag ("missing")) rfl⟩

end TagGuard
